import Mathlib

/-!
Verification of the Sino Trade article view boost engine.

This file shallowly embeds the core of the repository:
  * the reducer-based operation state store (`hooks/useBoostOperation`),
  * the boost engine request loop (`lib/boostService`),
  * the drift-compensating scheduler delay (`lib/utils/timing`),
  * the article URL resolver (`lib/utils/urlBuilder`),
  * the backend proxy route (`app/api/boost-view/route`).

JavaScript numbers that are integral in practice (timestamps, counters,
millisecond durations, HTTP statuses) are modelled as `Int`/`Nat`; the one
fractional quantity (`timing.duration`, a seconds value produced by a `/ 1000`
division) is modelled exactly as `Rat`.  `Date.now()` values are passed as
explicit arguments.  Asynchrony is modelled by sequencing: only one proxy call
is in flight at a time, so a run is a fold over the list of per-tick proxy
results.
-/

namespace SinoTrade

/-! ## JavaScript string/number primitives used by the embedded code -/

/-- JS `Math.round(q)`: round half toward plus infinity. -/
def jsRound (q : Rat) : Int := Int.floor (q + 1/2)

/-- The character class matched by the JS regex `\s` (also the set removed by
`String.prototype.trim`): ASCII whitespace, NBSP, Unicode space separators,
line/paragraph separators and the BOM. -/
def isJsWhitespace (c : Char) : Bool :=
  c.toNat = 9 || c.toNat = 10 || c.toNat = 11 || c.toNat = 12 || c.toNat = 13 ||
  c.toNat = 32 || c.toNat = 160 || c.toNat = 0x1680 ||
  (0x2000 ≤ c.toNat && c.toNat ≤ 0x200A) || c.toNat = 0x2028 || c.toNat = 0x2029 ||
  c.toNat = 0x202F || c.toNat = 0x205F || c.toNat = 0x3000 || c.toNat = 0xFEFF

/-- JS `String.prototype.trim`. -/
def jsTrim (s : String) : String :=
  String.mk (((s.toList.dropWhile isJsWhitespace).reverse.dropWhile isJsWhitespace).reverse)

/-- JS `String.prototype.includes(pat)` on the underlying character sequences. -/
def strIncludesAux (pat : List Char) : List Char → Bool
  | [] => pat.isEmpty
  | c :: rest => pat.isPrefixOf (c :: rest) || strIncludesAux pat rest

/-- JS `s.includes(pat)`. -/
def strIncludes (s pat : String) : Bool := strIncludesAux pat.toList s.toList

/-! ## Data model (`lib/types.ts` plus the runtime shape used by the hook) -/

/-- Model of `Article` from `lib/types.ts`. -/
structure Article where
  _id : String
  title : String
  channelId : Option String := none
  url : Option String := none
  totalView : Option Nat := none
deriving DecidableEq, Repr

/-- Model of `BoostStatus` from `lib/types.ts`. -/
inductive BoostStatus where
  | idle
  | running
  | paused
  | completed
  | error
deriving DecidableEq, Repr

/-- The `config` component of `BoostOperation`. -/
structure BoostConfigState where
  count : Nat
  interval : Nat
deriving DecidableEq, Repr

/-- The `metrics` component of `BoostOperation` (the runtime object built by
`useBoostOperation` carries `consecutiveFailures` alongside the documented
fields). -/
structure BoostMetrics where
  current : Nat
  success : Nat
  failed : Nat
  consecutiveFailures : Nat
  responseTimes : List Int
  averageResponseTime : Int
deriving DecidableEq, Repr

/-- The `timing` component of `BoostOperation`.  `duration` is seconds (a JS
float produced by `/ 1000`), modelled exactly with `Rat`. -/
structure BoostTiming where
  startTime : Option Int
  endTime : Option Int
  duration : Rat
  pausedDuration : Int
deriving DecidableEq, Repr

/-- Model of the `BoostOperation` snapshot from `lib/types.ts`. -/
structure BoostOperation where
  status : BoostStatus
  article : Option Article
  config : BoostConfigState
  metrics : BoostMetrics
  timing : BoostTiming
  error : Option String
deriving DecidableEq, Repr

/-- Model of `initialState` from `hooks/useBoostOperation`. -/
def initialState : BoostOperation :=
  { status := .idle
    article := none
    config := { count := 200, interval := 300 }
    metrics := { current := 0, success := 0, failed := 0, consecutiveFailures := 0,
                 responseTimes := [], averageResponseTime := 0 }
    timing := { startTime := none, endTime := none, duration := 0, pausedDuration := 0 }
    error := none }

/-- Model of `BoostProgress` from `lib/boostService`: payload of each `onProgress`
callback.  `statusCode` is `none` when the field is absent (catch branch). -/
structure ProgressEvent where
  current : Nat
  total : Nat
  success : Bool
  responseTime : Int
  statusCode : Option Nat
  error : Option String
  consecutiveFailures : Nat
deriving DecidableEq, Repr

/-- Model of `BoostAction` from `hooks/useBoostOperation`.  Actions that read
`Date.now()` inside the reducer carry the timestamp explicitly. -/
inductive BoostAction where
  | start (article : Article) (count interval : Nat) (now : Int)
  | pause
  | resume
  | reset
  | updateProgress (payload : ProgressEvent)
  | complete (now : Int)
  | error (message : String) (now : Int)
  | autoStop (reason : String) (consecutiveFailures : Nat) (now : Int)
deriving DecidableEq, Repr

/-- Model of `calculateAverageResponseTime` from `hooks/useBoostOperation`:
`Math.round(sum / length)`, `0` for the empty list. -/
def calculateAverageResponseTime (responseTimes : List Int) : Int :=
  if responseTimes.length = 0 then 0
  else jsRound (((responseTimes.foldl (· + ·) 0 : Int) : Rat) / (responseTimes.length : Rat))

/-- Model of `boostReducer` from `hooks/useBoostOperation`.  The `COMPLETE` branch
mirrors the JS truthiness test `state.timing.startTime ? … : 0` (both `null`
and `0` are falsy). -/
def boostReducer (state : BoostOperation) (action : BoostAction) : BoostOperation :=
  match action with
  | .start article count interval now =>
    { initialState with
        status := .running
        article := some article
        config := { count := count, interval := interval }
        timing := { initialState.timing with startTime := some now } }
  | .pause => { state with status := .paused }
  | .resume => { state with status := .running }
  | .reset => initialState
  | .updateProgress payload =>
    let newResponseTimes := state.metrics.responseTimes ++ [payload.responseTime]
    let newSuccess := state.metrics.success + (if payload.success then 1 else 0)
    let newFailed := state.metrics.failed + (if payload.success then 0 else 1)
    { state with
        metrics := { current := payload.current + 1
                     success := newSuccess
                     failed := newFailed
                     consecutiveFailures := payload.consecutiveFailures
                     responseTimes := newResponseTimes
                     averageResponseTime := calculateAverageResponseTime newResponseTimes } }
  | .complete now =>
    let duration : Rat :=
      match state.timing.startTime with
      | some st => if st = 0 then 0
                   else ((now - st - state.timing.pausedDuration : Int) : Rat) / 1000
      | none => 0
    { state with
        status := .completed
        timing := { state.timing with endTime := some now, duration := duration } }
  | .error message now =>
    { state with
        status := .error
        error := some message
        timing := { state.timing with endTime := some now } }
  | .autoStop reason consecutiveFailures now =>
    { state with
        status := .error
        error := some ("自動停止：" ++ reason ++ " (連續失敗 " ++ toString consecutiveFailures ++ " 次)")
        timing := { state.timing with endTime := some now } }

/-! ## URL resolver (`lib/utils/urlBuilder.ts`) -/

/-- A character of the class `[a-f0-9]` with the regex `i` flag. -/
def isHexChar (c : Char) : Bool :=
  c.isDigit || ('a' ≤ c && c ≤ 'f') || ('A' ≤ c && c ≤ 'F')

/-- The test `/^[a-f0-9]{24}$/i.test(s)`. -/
def matchesHex24 (s : String) : Bool :=
  s.length == 24 && s.toList.all isHexChar

/-- The character class of `sanitizeTitle`'s regex
`[,，\s\?？:：%*、()（）【】\[\]！!.]`. -/
def isSanitizeSpecial (c : Char) : Bool :=
  c = ',' || c = '，' || isJsWhitespace c || c = '?' || c = '？' || c = ':' || c = '：' ||
  c = '%' || c = '*' || c = '、' || c = '(' || c = ')' || c = '（' || c = '）' ||
  c = '【' || c = '】' || c = '[' || c = ']' || c = '！' || c = '!' || c = '.'

/-- Model of `sanitizeTitle` from `lib/utils/urlBuilder`: replace each special character
with a hyphen. -/
def sanitizeTitle (title : String) : String :=
  String.mk (title.toList.map (fun c => if isSanitizeSpecial c then '-' else c))

/-- Model of `buildArticleUrl` from `lib/utils/urlBuilder`; `throw` becomes
`Except.error`.  The JS guards `!article._id` / `!article.title` (falsy on the
empty string) are mirrored literally. -/
def buildArticleUrl (article : Article) (channelId : Option String) : Except String String :=
  if article._id = "" ∨ matchesHex24 article._id = false then
    .error ("Invalid article ID format: " ++ article._id ++ ". Must be 24-character hex string.")
  else if article.title = "" ∨ (jsTrim article.title).length = 0 then
    .error "Article title cannot be empty"
  else
    let sanitized := sanitizeTitle article.title
    let isStockTalk := channelId = some "630c2850c6435a2ff402ccfb"
    let path := if isStockTalk then "hotstock" else "MacroExpert"
    .ok ("https://www.sinotrade.com.tw/richclub/" ++ path ++ "/" ++ sanitized ++ "--" ++ article._id)

/-- Local spelling of `Except.isOk`. -/
def isOkE : Except ε α → Bool
  | .ok _ => true
  | .error _ => false

/-! ## Scheduler delay (`lib/utils/timing.ts`, `scheduleAccurate`) -/

/-- The delay computation of `scheduleAccurate` (lines 72–75 of
`lib/utils/timing.ts`): `drift = now - (expectedTime - intervalMs)` and
`adjustedDelay = Math.max(0, intervalMs - drift)`. -/
def adjustedDelay (intervalMs expectedTime now : Int) : Int :=
  let drift := now - (expectedTime - intervalMs)
  max 0 (intervalMs - drift)

/-! ## Boost engine (`lib/boostService.ts`) -/

/-- The resolved value of `sendViewRequest`: the parsed JSON fields the engine
reads. -/
structure SendResult where
  responseTime : Int
  statusCode : Nat
  success : Bool
  error : Option String
deriving DecidableEq, Repr

/-- The object thrown by `sendViewRequest` on a network-level failure of the
fetch to the same-origin proxy. -/
structure SendError where
  responseTime : Int
  statusCode : Nat
  success : Bool
  error : String
deriving DecidableEq, Repr

/-- The settled result of one tick's `sendViewRequest` call. -/
abbrev TickResult := Except SendError SendResult

/-- The progress event `executeRequest` builds for one settled proxy call:
the `try` branch includes `statusCode`, the `catch` branch omits it and
computes `success = errorData.success || false`.  `cf` is the engine's
`consecutiveFailures` at the moment of the `onProgress` call (before the
counter is updated for this outcome). -/
def mkEvent (idx count cf : Nat) : TickResult → ProgressEvent
  | .ok r => { current := idx, total := count, success := r.success,
               responseTime := r.responseTime, statusCode := some r.statusCode,
               error := r.error, consecutiveFailures := cf }
  | .error e => { current := idx, total := count, success := e.success || false,
                  responseTime := e.responseTime, statusCode := none,
                  error := some e.error, consecutiveFailures := cf }

/-- JS `error?.includes(pat)` with an optional error string. -/
def errIncludes (e : Option String) (pat : String) : Bool :=
  match e with
  | some s => strIncludes s pat
  | none => false

/-- The auto-stop reason classification inside `executeRequest` (the local
`statusCode` is undefined in the catch branch, hence `Option Nat`). -/
def autoStopReason (statusCode : Option Nat) (error : Option String) : String :=
  if statusCode = some 404 then "文章不存在 (404)"
  else if statusCode = some 429 then "請求過於頻繁 (429)"
  else if errIncludes error "WAF" || errIncludes error "防火牆" then "被防火牆阻擋"
  else if errIncludes error "timeout" || errIncludes error "超時" then "請求超時"
  else "連續失敗次數過多"

/-- How a run of the engine ended:
`completed` = `onComplete` fired, `autoStopped` = `onAutoStop reason n` fired,
`cancelled` = `cancel()` interrupted the run (no terminal callback), `pending`
= the supplied list of proxy results was exhausted with a call still
outstanding (no callback yet). -/
inductive RunEnd where
  | completed
  | autoStopped (reason : String) (consecutiveFailures : Nat)
  | cancelled
  | pending
deriving DecidableEq, Repr

/-- Observable result of a run: the `onProgress` events in order, how the run
ended, and the engine's final `currentIndex`. -/
structure EngineResult where
  events : List ProgressEvent
  ending : RunEnd
  finalIndex : Nat
deriving DecidableEq, Repr

/-- The `executeRequest` loop of `startBoost`, driven by the list of settled
proxy-call results (one per tick, in order — only one call is ever in
flight).  `cancelAt = some i` models `cancel()` being invoked while tick `i`'s
proxy call is in flight: the post-`await` `if (isCancelled) return` fires, the
outcome is not reported, and nothing further is scheduled.  `idx`/`cf` are the
engine's `currentIndex` and `consecutiveFailures`. -/
def engineLoop (count : Nat) (cancelAt : Option Nat) : Nat → Nat → List TickResult → EngineResult
  | idx, _, [] => { events := [], ending := .pending, finalIndex := idx }
  | idx, cf, o :: rest =>
    if cancelAt = some idx then
      { events := [], ending := .cancelled, finalIndex := idx }
    else
      let ev := mkEvent idx count cf o
      if ev.success = false ∧ 3 ≤ cf + 1 then
        { events := [ev]
          ending := .autoStopped (autoStopReason ev.statusCode ev.error) (cf + 1)
          finalIndex := idx }
      else
        let cf' := if ev.success then 0 else cf + 1
        let idx' := idx + 1
        if idx' < count then
          let r := engineLoop count cancelAt idx' cf' rest
          { events := ev :: r.events, ending := r.ending, finalIndex := r.finalIndex }
        else
          { events := [ev], ending := .completed, finalIndex := idx' }

/-- A run of the engine from a fresh `startBoost` state, with an optional
mid-flight cancellation. -/
def runEngineWith (count : Nat) (cancelAt : Option Nat) (outcomes : List TickResult) : EngineResult :=
  engineLoop count cancelAt 0 0 outcomes

/-- A run of the engine that is never cancelled. -/
def runEngine (count : Nat) (outcomes : List TickResult) : EngineResult :=
  runEngineWith count none outcomes

/-- The flags of the `BoostController` closure (`isPaused`, `isCancelled`,
and whether a timer is pending). -/
structure ControllerState where
  isPaused : Bool
  isCancelled : Bool
  timerPending : Bool
deriving DecidableEq, Repr

/-- The `cancel` closure of the controller: sets `isCancelled`, clears
`isPaused`, cancels any pending timer. -/
def cancelOp (_s : ControllerState) : ControllerState :=
  { isPaused := false, isCancelled := true, timerPending := false }

/-- Model of `startBoost`: `buildArticleUrl(article, article.channelId)` is evaluated
synchronously first; a thrown error propagates before any tick is scheduled,
otherwise the request loop runs. -/
def startBoostRun (article : Article) (count : Nat) (outcomes : List TickResult) :
    Except String EngineResult :=
  match buildArticleUrl article article.channelId with
  | .error e => .error e
  | .ok _ => .ok (runEngine count outcomes)

/-! ## Wiring the engine callbacks into the store (`useBoostOperation`) -/

/-- The store actions dispatched by the hook for a run's terminal callback. -/
def endingActions (e : RunEnd) (tEnd : Int) : List BoostAction :=
  match e with
  | .completed => [.complete tEnd]
  | .autoStopped reason cf => [.autoStop reason cf tEnd]
  | .cancelled => []
  | .pending => []

/-- The full action sequence the hook dispatches for one run: `START`, one
`UPDATE_PROGRESS` per `onProgress` event, then the terminal action. -/
def runActionList (article : Article) (count interval : Nat) (t0 tEnd : Int)
    (outcomes : List TickResult) : List BoostAction :=
  let r := runEngine count outcomes
  .start article count interval t0 :: (r.events.map .updateProgress ++ endingActions r.ending tEnd)

/-- The store snapshot at the end of one run. -/
def runStore (article : Article) (count interval : Nat) (t0 tEnd : Int)
    (outcomes : List TickResult) : BoostOperation :=
  (runActionList article count interval t0 tEnd outcomes).foldl boostReducer initialState

/-- The hook's `pauseStartTimeRef` (the only pause bookkeeping outside the
store). -/
structure HookRefs where
  pauseStartTime : Option Int
deriving DecidableEq, Repr

/-- The hook's `pause` callback: guards on `status === 'running'`, records
`Date.now()` in `pauseStartTimeRef`, dispatches `PAUSE`. -/
def hookPause (s : BoostOperation) (refs : HookRefs) (now : Int) : BoostOperation × HookRefs :=
  if s.status = .running then (boostReducer s .pause, { pauseStartTime := some now })
  else (s, refs)

/-- The hook's `resume` callback: guards on `status === 'paused'`, clears
`pauseStartTimeRef` without reading it, dispatches `RESUME`. -/
def hookResume (s : BoostOperation) (refs : HookRefs) : BoostOperation × HookRefs :=
  if s.status = .paused then (boostReducer s .resume, { pauseStartTime := none })
  else (s, refs)

/-! ## Text normalization (`lib/utils/format.ts`, `normalizeTextForComparison`) -/

/-- JS `String.fromCharCode(n)`: the code is reduced modulo 2^16; a resulting
lone surrogate (not a Unicode scalar value) degrades to NUL here, a case no
embedded caller reaches with well-formed input. -/
def charFromCharCode (n : Nat) : Char := Char.ofNat (n % 65536)

/-- Numeric value of a (case-insensitive) hex digit. -/
def hexVal (c : Char) : Nat :=
  if c.isDigit then c.toNat - 48
  else if 'a' ≤ c && c ≤ 'f' then c.toNat - 87
  else if 'A' ≤ c && c ≤ 'F' then c.toNat - 55
  else 0

/-- Scan the digit run and closing `;` of a decimal entity `&#(\d+);`,
accumulating the `parseInt(dec, 10)` value. -/
def scanDec (acc : Nat) : List Char → Option (Nat × List Char)
  | ';' :: rest => some (acc, rest)
  | c :: rest => if c.isDigit then scanDec (acc * 10 + (c.toNat - 48)) rest else none
  | [] => none

/-- Scan the digit run and closing `;` of a hex entity `&#x([0-9a-f]+);` with
the `i` flag. -/
def scanHex (acc : Nat) : List Char → Option (Nat × List Char)
  | ';' :: rest => some (acc, rest)
  | c :: rest => if isHexChar c then scanHex (acc * 16 + hexVal c) rest else none
  | [] => none

/-- One left-to-right global pass of `.replace(/&#(\d+);/g, fromCharCode)`,
fuelled by the input length (each step consumes at least one character). -/
def decodeDecEntitiesF : Nat → List Char → List Char
  | 0, l => l
  | _ + 1, [] => []
  | fuel + 1, '&' :: '#' :: c :: rest =>
    if c.isDigit then
      match scanDec (c.toNat - 48) rest with
      | some (n, tail) => charFromCharCode n :: decodeDecEntitiesF fuel tail
      | none => '&' :: decodeDecEntitiesF fuel ('#' :: c :: rest)
    else '&' :: decodeDecEntitiesF fuel ('#' :: c :: rest)
  | fuel + 1, c :: rest => c :: decodeDecEntitiesF fuel rest

/-- One left-to-right global pass of `.replace(/&#x([0-9a-f]+);/gi, …)`. -/
def decodeHexEntitiesF : Nat → List Char → List Char
  | 0, l => l
  | _ + 1, [] => []
  | fuel + 1, '&' :: '#' :: x :: c :: rest =>
    if (x = 'x' || x = 'X') && isHexChar c then
      match scanHex (hexVal c) rest with
      | some (n, tail) => charFromCharCode n :: decodeHexEntitiesF fuel tail
      | none => '&' :: decodeHexEntitiesF fuel ('#' :: x :: c :: rest)
    else '&' :: decodeHexEntitiesF fuel ('#' :: x :: c :: rest)
  | fuel + 1, c :: rest => c :: decodeHexEntitiesF fuel rest

/-- One pass of `.replace(/\\u([0-9a-f]{4})/gi, …)`. -/
def decodeUnicodeEscapes : List Char → List Char
  | '\\' :: u :: a :: b :: c :: d :: rest =>
    if (u = 'u' || u = 'U') && isHexChar a && isHexChar b && isHexChar c && isHexChar d then
      charFromCharCode (hexVal a * 4096 + hexVal b * 256 + hexVal c * 16 + hexVal d)
        :: decodeUnicodeEscapes rest
    else '\\' :: decodeUnicodeEscapes (u :: a :: b :: c :: d :: rest)
  | c :: rest => c :: decodeUnicodeEscapes rest
  | [] => []

/-- One pass of `.replace(/\s+/g, ' ')`, fuelled by the input length. -/
def collapseWhitespaceF : Nat → List Char → List Char
  | 0, l => l
  | _ + 1, [] => []
  | fuel + 1, c :: rest =>
    if isJsWhitespace c then ' ' :: collapseWhitespaceF fuel (rest.dropWhile isJsWhitespace)
    else c :: collapseWhitespaceF fuel rest

/-- Model of `normalizeTextForComparison` from `lib/utils/format.ts`: the chained
`.replace` passes, in source order, then `.trim()`. -/
def normalizeTextForComparison (text : String) : String :=
  let step1 := (((((text.replace "&amp;" "&").replace "&lt;" "<").replace "&gt;" ">").replace
      "&quot;" "\"").replace "&#39;" "'").replace "&nbsp;" " "
  let l1 := step1.toList
  let l2 := decodeDecEntitiesF l1.length l1
  let l3 := decodeHexEntitiesF l2.length l2
  let l4 := decodeUnicodeEscapes l3
  let l5 := collapseWhitespaceF l4.length l4
  jsTrim (String.mk l5)

/-! ## Proxy route (`app/api/boost-view/route.ts`) -/

/-- Case-insensitive (ASCII) literal match: if `s` starts with `pat` modulo
case, return the remainder. -/
def matchCI : List Char → List Char → Option (List Char)
  | [], s => some s
  | _, [] => none
  | p :: ps, c :: cs => if p.toLower = c.toLower then matchCI ps cs else none

/-- Try the regex `<title[^>]*>([^<]+)<\/title>/i` anchored at the head of
`s`, returning the capture. -/
def tryTitleAt (s : List Char) : Option (List Char) :=
  match matchCI "<title".toList s with
  | none => none
  | some rest =>
    match rest.dropWhile (· ≠ '>') with
    | '>' :: rest2 =>
      let captured := rest2.takeWhile (· ≠ '<')
      if captured.isEmpty then none
      else
        match matchCI "</title>".toList (rest2.dropWhile (· ≠ '<')) with
        | some _ => some captured
        | none => none
    | _ => none

/-- Leftmost match of the title regex. -/
def findTitle : List Char → Option (List Char)
  | [] => none
  | c :: rest =>
    match tryTitleAt (c :: rest) with
    | some cap => some cap
    | none => findTitle rest

/-- Model of `extractDocumentTitle` from `app/api/boost-view/route.ts`:
`html.match(/<title[^>]*>([^<]+)<\/title>/i)` and `.trim()` on the capture. -/
def extractDocumentTitle (html : String) : Option String :=
  (findTitle html.toList).map (fun l => jsTrim (String.mk l))

/-- The JSON body produced by the route's `POST` handler.  `titleFound` and
`documentTitle` are present only on the 2xx path (`documentTitle` itself may
be `null` there, hence the nested option). -/
structure BoostViewResponse where
  success : Bool
  statusCode : Nat
  responseTime : Int
  error : Option String
  titleFound : Option Bool
  documentTitle : Option (Option String)
deriving DecidableEq, Repr

/-- The `POST` handler of `app/api/boost-view/route.ts`, given the settled
result of the target fetch.  `targetResult` is `.error msg` when the target
fetch (or body read) threw — the outer `catch` converts that to a resolved
500 body, so the handler itself never rejects.  `rt` stands for the
`Date.now() - startTime` response-time measurements. -/
def boostViewPOST (url articleTitle : String)
    (targetResult : Except String (Nat × String × String)) (rt : Int) : BoostViewResponse :=
  if url = "" ∨ articleTitle = "" then
    { success := false, statusCode := 400, responseTime := rt,
      error := some "Missing required fields: url and articleTitle",
      titleFound := none, documentTitle := none }
  else
    match targetResult with
    | .error msg =>
      { success := false, statusCode := 500, responseTime := rt,
        error := some msg, titleFound := none, documentTitle := none }
    | .ok (statusCode, statusText, html) =>
      if statusCode < 200 ∨ 300 ≤ statusCode then
        { success := false, statusCode := statusCode, responseTime := rt,
          error := some ("HTTP " ++ toString statusCode ++ ": " ++ statusText),
          titleFound := none, documentTitle := none }
      else
        let documentTitle := extractDocumentTitle html
        let normalizedExpectedTitle := normalizeTextForComparison articleTitle
        let normalizedDocumentTitle :=
          match documentTitle with
          | some t => normalizeTextForComparison t
          | none => ""
        let titleFound := strIncludes normalizedDocumentTitle normalizedExpectedTitle
        let isWafBlock := strIncludes html "The requested URL was rejected" ||
          strIncludes html "Your support ID is:"
        let success := (decide (200 ≤ statusCode) && decide (statusCode < 300)) &&
          titleFound && !isWafBlock
        { success := success, statusCode := statusCode, responseTime := rt,
          error := if isWafBlock then some "WAF block detected"
                   else if !titleFound then some "Article title not found in response"
                   else none,
          titleFound := some titleFound, documentTitle := some documentTitle }

/-- Model of `sendViewRequest` from `lib/boostService`: when the fetch to the
same-origin proxy resolves it returns the parsed body fields; when that fetch
(or JSON parse) throws — a true network-level exception — it throws
`{responseTime: 0, statusCode: 0, success: false, error}`. -/
def sendViewRequest (apiResult : Except String BoostViewResponse) : TickResult :=
  match apiResult with
  | .ok data =>
    .ok { responseTime := data.responseTime, statusCode := data.statusCode,
          success := data.success, error := data.error }
  | .error msg =>
    .error { responseTime := 0, statusCode := 0, success := false, error := msg }

/-! ## Specification-side definitions -/

/-- Formalization of claim C5's description of the reported
`consecutiveFailures` values: starting from streak value `c`, each outcome is
reported with the streak length accumulated *before* it, the streak resetting
to `0` after a success and growing by one after a failure. -/
def streaksFrom (c : Nat) : List Bool → List Nat
  | [] => []
  | b :: bs => c :: streaksFrom (if b then 0 else c + 1) bs

/-- The constraint the engine guarantees on every action it ever dispatches to
the store: progress payloads carry a `consecutiveFailures` value of at most
`2` (all other actions are unconstrained). -/
def GoodAction : BoostAction → Prop
  | .updateProgress p => p.consecutiveFailures ≤ 2
  | _ => True

/-! ## Concrete sample inputs for the scenario theorems -/

/-- A well-formed article (24-hex id, non-empty title). -/
def sampleArticle : Article :=
  { _id := "68e4a15046b10f98ffe2f4bc", title := "美股依舊續創新高" }

/-- A successful tick: the proxy resolved with a 2xx verified view. -/
def okTick : TickResult :=
  .ok { responseTime := 150, statusCode := 200, success := true, error := none }

/-- A failed tick: the proxy resolved with an HTTP 500 from the target. -/
def failTick : TickResult :=
  .ok { responseTime := 150, statusCode := 500, success := false,
        error := some "HTTP 500: Internal Server Error" }

/-- Claim C1's scenario: one success followed by three consecutive failures. -/
def sampleOutcomes4 : List TickResult := [okTick, failTick, failTick, failTick]

/-- Three successful ticks. -/
def okOutcomes3 : List TickResult := [okTick, okTick, okTick]

/-- Claim C3's scenario, step 1: `START` dispatched at t = 1000 ms. -/
def pauseTraceStart : BoostOperation :=
  boostReducer initialState (.start sampleArticle 10 300 1000)

/-- Claim C3's scenario, step 2: the hook's `pause` at t = 2000 ms. -/
def pauseTracePaused : BoostOperation × HookRefs :=
  hookPause pauseTraceStart { pauseStartTime := none } 2000

/-- Claim C3's scenario, step 3: the hook's `resume` at t = 4500 ms (so the
run was paused for 2500 ms of wall-clock time). -/
def pauseTraceResumed : BoostOperation × HookRefs :=
  hookResume pauseTracePaused.1 pauseTracePaused.2

/-- Claim C3's scenario, step 4: `COMPLETE` dispatched at t = 6000 ms. -/
def pauseTraceFinal : BoostOperation :=
  boostReducer pauseTraceResumed.1 (.complete 6000)

/-! ## Helper lemmas about the engine loop -/

@[simp] theorem mkEvent_current (idx count cf : Nat) (o : TickResult) :
    (mkEvent idx count cf o).current = idx := by
  cases o <;> rfl

@[simp] theorem mkEvent_consecutiveFailures (idx count cf : Nat) (o : TickResult) :
    (mkEvent idx count cf o).consecutiveFailures = cf := by
  cases o <;> rfl

theorem engineLoop_autoStopped_eq_three (count : Nat) (cancelAt : Option Nat) :
    ∀ (outs : List TickResult) (idx cf : Nat), cf ≤ 2 →
      ∀ (reason : String) (n : Nat),
        (engineLoop count cancelAt idx cf outs).ending = RunEnd.autoStopped reason n → n = 3 := by
  intro outs
  induction outs with
  | nil =>
    intro idx cf _ reason n h
    simp [engineLoop] at h
  | cons o rest ih =>
    intro idx cf hcf reason n h
    simp only [engineLoop] at h
    by_cases hc : cancelAt = some idx
    · rw [if_pos hc] at h; simp at h
    · rw [if_neg hc] at h
      by_cases hstop : (mkEvent idx count cf o).success = false ∧ 3 ≤ cf + 1
      · rw [if_pos hstop] at h
        simp only [] at h
        have h' : cf + 1 = n := by
          have := h
          simp at this
          exact this.2
        omega
      · rw [if_neg hstop] at h
        by_cases hlt : idx + 1 < count
        · rw [if_pos hlt] at h
          simp only [] at h
          refine ih (idx + 1) _ ?_ reason n h
          cases hs : (mkEvent idx count cf o).success with
          | true => simp [hs]
          | false =>
            simp only [hs, Bool.false_eq_true, if_false]
            push_neg at hstop
            have := hstop hs
            omega
        · rw [if_neg hlt] at h
          simp at h

theorem engineLoop_events_cf_le (count : Nat) (cancelAt : Option Nat) :
    ∀ (outs : List TickResult) (idx cf : Nat), cf ≤ 2 →
      ∀ e ∈ (engineLoop count cancelAt idx cf outs).events, e.consecutiveFailures ≤ 2 := by
  intro outs
  induction outs with
  | nil =>
    intro idx cf _ e he
    simp [engineLoop] at he
  | cons o rest ih =>
    intro idx cf hcf e he
    simp only [engineLoop] at he
    by_cases hc : cancelAt = some idx
    · rw [if_pos hc] at he; simp at he
    · rw [if_neg hc] at he
      by_cases hstop : (mkEvent idx count cf o).success = false ∧ 3 ≤ cf + 1
      · rw [if_pos hstop] at he
        simp at he
        subst he
        simpa using hcf
      · rw [if_neg hstop] at he
        by_cases hlt : idx + 1 < count
        · rw [if_pos hlt] at he
          simp at he
          rcases he with he | he
          · subst he; simpa using hcf
          · refine ih (idx + 1) _ ?_ e he
            cases hs : (mkEvent idx count cf o).success with
            | true => simp [hs]
            | false =>
              simp only [hs, Bool.false_eq_true, if_false]
              push_neg at hstop
              have := hstop hs
              omega
        · rw [if_neg hlt] at he
          simp at he
          subst he
          simpa using hcf

theorem engineLoop_events_current (count : Nat) (cancelAt : Option Nat) :
    ∀ (outs : List TickResult) (idx cf : Nat),
      (engineLoop count cancelAt idx cf outs).events.map (·.current) =
        List.range' idx (engineLoop count cancelAt idx cf outs).events.length := by
  intro outs
  induction outs with
  | nil => intro idx cf; simp [engineLoop]
  | cons o rest ih =>
    intro idx cf
    simp only [engineLoop]
    by_cases hc : cancelAt = some idx
    · rw [if_pos hc]; simp
    · rw [if_neg hc]
      by_cases hstop : (mkEvent idx count cf o).success = false ∧ 3 ≤ cf + 1
      · rw [if_pos hstop]
        simp [List.range'_one]
      · rw [if_neg hstop]
        by_cases hlt : idx + 1 < count
        · rw [if_pos hlt]
          simp only [List.map_cons, List.length_cons, mkEvent_current]
          rw [List.range'_succ]
          exact congrArg _ (ih (idx + 1) _)
        · rw [if_neg hlt]
          simp [List.range'_one]

theorem engineLoop_completed_length (count : Nat) (cancelAt : Option Nat) :
    ∀ (outs : List TickResult) (idx cf : Nat), idx < count →
      (engineLoop count cancelAt idx cf outs).ending = RunEnd.completed →
      (engineLoop count cancelAt idx cf outs).events.length = count - idx := by
  intro outs
  induction outs with
  | nil =>
    intro idx cf _ h
    simp [engineLoop] at h
  | cons o rest ih =>
    intro idx cf hidx h
    simp only [engineLoop] at h ⊢
    by_cases hc : cancelAt = some idx
    · rw [if_pos hc] at h; simp at h
    · rw [if_neg hc] at h ⊢
      by_cases hstop : (mkEvent idx count cf o).success = false ∧ 3 ≤ cf + 1
      · rw [if_pos hstop] at h; simp at h
      · rw [if_neg hstop] at h ⊢
        by_cases hlt : idx + 1 < count
        · rw [if_pos hlt] at h ⊢
          simp only [] at h
          simp only [List.length_cons]
          rw [ih (idx + 1) _ hlt h]
          omega
        · rw [if_neg hlt] at h ⊢
          simp only [List.length_cons, List.length_nil]
          omega

theorem engineLoop_completed_getLast (count : Nat) (cancelAt : Option Nat) :
    ∀ (outs : List TickResult) (idx cf : Nat), idx < count →
      (engineLoop count cancelAt idx cf outs).ending = RunEnd.completed →
      ((engineLoop count cancelAt idx cf outs).events.map (·.current)).getLast? =
        some (count - 1) := by
  intro outs
  induction outs with
  | nil =>
    intro idx cf _ h
    simp [engineLoop] at h
  | cons o rest ih =>
    intro idx cf hidx h
    simp only [engineLoop] at h ⊢
    by_cases hc : cancelAt = some idx
    · rw [if_pos hc] at h; simp at h
    · rw [if_neg hc] at h ⊢
      by_cases hstop : (mkEvent idx count cf o).success = false ∧ 3 ≤ cf + 1
      · rw [if_pos hstop] at h; simp at h
      · rw [if_neg hstop] at h ⊢
        by_cases hlt : idx + 1 < count
        · rw [if_pos hlt] at h ⊢
          simp only [] at h
          have hl := ih (idx + 1) _ hlt h
          cases hm : ((engineLoop count cancelAt (idx + 1)
              (if (mkEvent idx count cf o).success = true then 0 else cf + 1) rest).events.map
                (·.current)) with
          | nil => rw [hm] at hl; simp at hl
          | cons x xs =>
            simp only [List.map_cons]
            rw [hm] at hl ⊢
            rw [List.getLast?_cons_cons]
            exact hl
        · rw [if_neg hlt] at h ⊢
          simp only [List.map_cons, List.map_nil, mkEvent_current]
          have : idx = count - 1 := by omega
          simp [this]

theorem engineLoop_events_streaks (count : Nat) (cancelAt : Option Nat) :
    ∀ (outs : List TickResult) (idx cf : Nat),
      (engineLoop count cancelAt idx cf outs).events.map (·.consecutiveFailures) =
        streaksFrom cf ((engineLoop count cancelAt idx cf outs).events.map (·.success)) := by
  intro outs
  induction outs with
  | nil => intro idx cf; simp [engineLoop, streaksFrom]
  | cons o rest ih =>
    intro idx cf
    simp only [engineLoop]
    by_cases hc : cancelAt = some idx
    · rw [if_pos hc]; simp [streaksFrom]
    · rw [if_neg hc]
      by_cases hstop : (mkEvent idx count cf o).success = false ∧ 3 ≤ cf + 1
      · rw [if_pos hstop]
        simp [streaksFrom]
      · rw [if_neg hstop]
        by_cases hlt : idx + 1 < count
        · rw [if_pos hlt]
          simp only [List.map_cons, mkEvent_consecutiveFailures, streaksFrom]
          exact congrArg _ (ih (idx + 1) _)
        · rw [if_neg hlt]
          simp [streaksFrom]

theorem engineLoop_cancel_events_lt (count i : Nat) :
    ∀ (outs : List TickResult) (idx cf : Nat), idx ≤ i →
      ∀ e ∈ (engineLoop count (some i) idx cf outs).events, e.current < i := by
  intro outs
  induction outs with
  | nil =>
    intro idx cf _ e he
    simp [engineLoop] at he
  | cons o rest ih =>
    intro idx cf hle e he
    simp only [engineLoop] at he
    by_cases hc : (some i : Option Nat) = some idx
    · rw [if_pos hc] at he; simp at he
    · rw [if_neg hc] at he
      have hne : i ≠ idx := fun hh => hc (by rw [hh])
      have hidx : idx < i := by omega
      by_cases hstop : (mkEvent idx count cf o).success = false ∧ 3 ≤ cf + 1
      · rw [if_pos hstop] at he
        simp at he
        subst he
        simpa using hidx
      · rw [if_neg hstop] at he
        by_cases hlt : idx + 1 < count
        · rw [if_pos hlt] at he
          simp at he
          rcases he with he | he
          · subst he; simpa using hidx
          · exact ih (idx + 1) _ (by omega) e he
        · rw [if_neg hlt] at he
          simp at he
          subst he
          simpa using hidx

/-! ## Helper lemmas about the store reducer -/

@[simp] theorem reducer_update_current (s : BoostOperation) (p : ProgressEvent) :
    (boostReducer s (.updateProgress p)).metrics.current = p.current + 1 := rfl

@[simp] theorem reducer_update_success (s : BoostOperation) (p : ProgressEvent) :
    (boostReducer s (.updateProgress p)).metrics.success =
      s.metrics.success + (if p.success then 1 else 0) := rfl

@[simp] theorem reducer_update_failed (s : BoostOperation) (p : ProgressEvent) :
    (boostReducer s (.updateProgress p)).metrics.failed =
      s.metrics.failed + (if p.success then 0 else 1) := rfl

@[simp] theorem reducer_update_cf (s : BoostOperation) (p : ProgressEvent) :
    (boostReducer s (.updateProgress p)).metrics.consecutiveFailures =
      p.consecutiveFailures := rfl

@[simp] theorem reducer_start_metrics (s : BoostOperation) (a : Article) (c i : Nat) (t : Int) :
    (boostReducer s (.start a c i t)).metrics = initialState.metrics := rfl

@[simp] theorem reducer_complete_metrics (s : BoostOperation) (t : Int) :
    (boostReducer s (.complete t)).metrics = s.metrics := rfl

@[simp] theorem reducer_autoStop_metrics (s : BoostOperation) (r : String) (n : Nat) (t : Int) :
    (boostReducer s (.autoStop r n t)).metrics = s.metrics := rfl

@[simp] theorem reducer_complete_status (s : BoostOperation) (t : Int) :
    (boostReducer s (.complete t)).status = .completed := rfl

@[simp] theorem reducer_autoStop_status (s : BoostOperation) (r : String) (n : Nat) (t : Int) :
    (boostReducer s (.autoStop r n t)).status = .error := rfl

theorem foldl_updates_success_failed :
    ∀ (evs : List ProgressEvent) (s : BoostOperation),
      ((evs.map BoostAction.updateProgress).foldl boostReducer s).metrics.success +
        ((evs.map BoostAction.updateProgress).foldl boostReducer s).metrics.failed =
        s.metrics.success + s.metrics.failed + evs.length := by
  intro evs
  induction evs with
  | nil => intro s; simp
  | cons e es ih =>
    intro s
    simp only [List.map_cons, List.foldl_cons, List.length_cons]
    rw [ih (boostReducer s (.updateProgress e))]
    simp only [reducer_update_success, reducer_update_failed]
    cases hs : e.success <;> simp [hs] <;> omega

theorem foldl_updates_current_last :
    ∀ (evs : List ProgressEvent) (s : BoostOperation) (c : Nat),
      (evs.map (·.current)).getLast? = some c →
      ((evs.map BoostAction.updateProgress).foldl boostReducer s).metrics.current = c + 1 := by
  intro evs
  induction evs with
  | nil => intro s c h; simp at h
  | cons e es ih =>
    intro s c h
    cases hes : es with
    | nil =>
      subst hes
      simp at h
      subst h
      simp
    | cons f fs =>
      subst hes
      simp only [List.map_cons] at h
      rw [List.getLast?_cons_cons] at h
      simp only [List.map_cons, List.foldl_cons]
      exact ih _ c (by rwa [List.map_cons])

theorem reducer_preserves_cf_le (s : BoostOperation) (a : BoostAction)
    (hs : s.metrics.consecutiveFailures ≤ 2) (ha : GoodAction a) :
    (boostReducer s a).metrics.consecutiveFailures ≤ 2 := by
  cases a with
  | start article count interval now => simp [boostReducer, initialState]
  | pause => simpa [boostReducer] using hs
  | resume => simpa [boostReducer] using hs
  | reset => simp [boostReducer, initialState]
  | updateProgress p => simpa [GoodAction] using ha
  | complete now => simpa using hs
  | error message now => simpa [boostReducer] using hs
  | autoStop r n now => simpa using hs

theorem foldl_good_cf_le :
    ∀ (acts : List BoostAction) (s : BoostOperation),
      s.metrics.consecutiveFailures ≤ 2 → (∀ a ∈ acts, GoodAction a) →
      (acts.foldl boostReducer s).metrics.consecutiveFailures ≤ 2 := by
  intro acts
  induction acts with
  | nil => intro s hs _; simpa using hs
  | cons a as ih =>
    intro s hs hg
    simp only [List.foldl_cons]
    exact ih _ (reducer_preserves_cf_le s a hs (hg a (by simp)))
      (fun b hb => hg b (by simp [hb]))

/-- The resolver `buildArticleUrl` succeeds exactly on a 24-hex id and a title that is
non-empty after trimming. -/
theorem buildArticleUrl_isOk_iff (a : Article) (ch : Option String) :
    isOkE (buildArticleUrl a ch) = true ↔
      (matchesHex24 a._id = true ∧ (jsTrim a.title).length ≠ 0) := by
  by_cases hhex : matchesHex24 a._id = true
  · have hidne : ¬ a._id = "" := by
      intro hh
      rw [hh] at hhex
      exact absurd hhex (by decide)
    have hid : ¬ (a._id = "" ∨ matchesHex24 a._id = false) := by
      rintro (h1 | h1)
      · exact hidne h1
      · rw [h1] at hhex; cases hhex
    by_cases htitle : (jsTrim a.title).length = 0
    · have ht : a.title = "" ∨ (jsTrim a.title).length = 0 := Or.inr htitle
      simp [buildArticleUrl, if_neg hid, if_pos ht, isOkE, hhex, htitle, hidne]
    · have hte : ¬ a.title = "" := by
        intro hh
        apply htitle
        rw [hh]
        rfl
      have ht : ¬ (a.title = "" ∨ (jsTrim a.title).length = 0) := by
        rintro (h1 | h1)
        · exact hte h1
        · exact htitle h1
      simp [buildArticleUrl, if_neg hid, if_neg ht, isOkE, hhex, htitle, hidne, hte]
  · have hid : a._id = "" ∨ matchesHex24 a._id = false := by
      right
      cases hm : matchesHex24 a._id
      · rfl
      · exact absurd hm hhex
    simp [buildArticleUrl, if_pos hid, isOkE, hhex]

/-! ## Claim theorems -/

/-- C8: applying the RESET action to any snapshot whatsoever yields exactly
the initial idle snapshot — status `idle`, null article, default config
`{count: 200, interval: 300}`, all-zero metrics with an empty `responseTimes`
list, all-null/zero timing, and a null error. -/
theorem reset_restores_initial_snapshot_c8 :
    (∀ s : BoostOperation, boostReducer s .reset = initialState) ∧
    initialState =
      { status := .idle
        article := none
        config := { count := 200, interval := 300 }
        metrics := { current := 0, success := 0, failed := 0, consecutiveFailures := 0,
                     responseTimes := [], averageResponseTime := 0 }
        timing := { startTime := none, endTime := none, duration := 0, pausedDuration := 0 }
        error := none } :=
  ⟨fun _ => rfl, rfl⟩

/-- C6: the delay `scheduleAccurate` hands to the timer primitive is
`max(0, intervalMs - drift)` with `drift = now - (expectedTime - intervalMs)`
computed from the previous expected fire time, and this is identically
`max(0, expectedTime - now)`: the scheduler always aims at the absolute
expected time, so drift cannot compound across ticks. -/
theorem scheduler_delay_targets_expected_time_c6 :
    ∀ (intervalMs expectedTime now : Int),
      adjustedDelay intervalMs expectedTime now =
        max 0 (intervalMs - (now - (expectedTime - intervalMs))) ∧
      adjustedDelay intervalMs expectedTime now = max 0 (expectedTime - now) := by
  intro i e n
  refine ⟨rfl, ?_⟩
  simp only [adjustedDelay]
  congr 1
  ring

/-- C5: every progress event reports the engine's failure-streak value from
*before* the outcome it describes — the reported `consecutiveFailures` values
of a run are exactly the running streak lengths computed over the reported
`success` flags starting at 0 (so the n-th consecutive failure is reported
with n-1, and a success after k failures is reported with k) — and the store
copies that value verbatim, hence lags the engine's internal counter by one
outcome. -/
theorem progress_cf_lags_engine_counter_c5 :
    (∀ (count : Nat) (cancelAt : Option Nat) (outs : List TickResult),
      (runEngineWith count cancelAt outs).events.map (·.consecutiveFailures) =
        streaksFrom 0 ((runEngineWith count cancelAt outs).events.map (·.success))) ∧
    (∀ (s : BoostOperation) (p : ProgressEvent),
      (boostReducer s (.updateProgress p)).metrics.consecutiveFailures =
        p.consecutiveFailures) :=
  ⟨fun count cancelAt outs => engineLoop_events_streaks count cancelAt outs 0 0,
   fun _ _ => rfl⟩

/-- C3 (code bug): no reducer action ever writes a non-zero
`timing.pausedDuration` (it is either preserved or reset to 0, and it starts
at 0), and in the concrete pause/resume scenario — start at t=1000ms, pause at
t=2000ms, resume at t=4500ms, complete at t=6000ms — the hook records the
pause start in `pauseStartTimeRef` but never folds it into the store, so the
final snapshot has `pausedDuration = 0` (not ≥ 2000 as the claim requires)
and `duration = 5` seconds, which *includes* the 2.5 s spent paused. -/
theorem paused_duration_never_accumulates_c3 :
    (∀ (s : BoostOperation) (a : BoostAction),
      (boostReducer s a).timing.pausedDuration = s.timing.pausedDuration ∨
      (boostReducer s a).timing.pausedDuration = 0) ∧
    (pauseTracePaused.2.pauseStartTime = some 2000 ∧
     pauseTraceResumed.2.pauseStartTime = none ∧
     pauseTraceFinal.status = .completed ∧
     pauseTraceFinal.timing.pausedDuration = 0 ∧
     pauseTraceFinal.timing.duration = 5) := by
  constructor
  · intro s a
    cases a with
    | start _ _ _ _ => right; rfl
    | pause => left; rfl
    | resume => left; rfl
    | reset => right; rfl
    | updateProgress p => left; rfl
    | complete t => left; rfl
    | error m t => left; rfl
    | autoStop r n t => left; rfl
  · refine ⟨by decide, by decide, by decide, by decide, ?_⟩
    show pauseTraceFinal.timing.duration = 5
    simp only [pauseTraceFinal, pauseTraceResumed, pauseTracePaused, pauseTraceStart,
      hookPause, hookResume, boostReducer, initialState]
    norm_num

/-- C2 counterexample: in a run of count 3 where `cancel()` arrives while tick
1's proxy call is in flight, the run ends cancelled and *no* progress event
for index 1 is ever emitted — the engine suppresses the in-flight outcome,
contradicting the claim that it is still reported via `onProgress`. -/
theorem cancel_inflight_suppressed_c2_cex :
    (runEngineWith 3 (some 1) okOutcomes3).ending = RunEnd.cancelled ∧
    ¬ (1 ∈ (runEngineWith 3 (some 1) okOutcomes3).events.map (·.current)) :=
  ⟨by decide, by decide⟩

/-- C2 (amended): when `cancel()` is called while a proxy call is in flight,
the outcome of that call is suppressed — every reported event belongs to a
tick strictly before the cancelled one — and no tick is scheduled after it;
`cancel()` is idempotent; and a run that ends by cancellation invokes neither
`onComplete` nor `onAutoStop`. -/
theorem cancel_semantics_amended_c2 :
    (∀ (count i : Nat) (outs : List TickResult),
      ∀ e ∈ (runEngineWith count (some i) outs).events, e.current < i) ∧
    (∀ s : ControllerState, cancelOp (cancelOp s) = cancelOp s) ∧
    (∀ (count i : Nat) (outs : List TickResult),
      (runEngineWith count (some i) outs).ending = RunEnd.cancelled →
      (runEngineWith count (some i) outs).ending ≠ RunEnd.completed ∧
      ∀ (reason : String) (n : Nat),
        (runEngineWith count (some i) outs).ending ≠ RunEnd.autoStopped reason n) := by
  refine ⟨?_, fun s => rfl, ?_⟩
  · intro count i outs e he
    exact engineLoop_cancel_events_lt count i outs 0 0 (Nat.zero_le i) e he
  · intro count i outs h
    constructor
    · rw [h]; intro hc; cases hc
    · intro reason n
      rw [h]
      intro hc
      cases hc

/-- Witness for `cancel_semantics_amended_c2` at the concrete cancelled run of
`cancel_inflight_suppressed_c2_cex`. -/
theorem cancel_semantics_amended_c2_witness :
    (mkEvent 0 3 0 okTick ∈ (runEngineWith 3 (some 1) okOutcomes3).events) ∧
    (mkEvent 0 3 0 okTick).current < 1 :=
  ⟨by decide, cancel_semantics_amended_c2.1 3 1 okOutcomes3 (mkEvent 0 3 0 okTick) (by decide)⟩

/-- C1: whenever the engine's consecutive-failure streak reaches 3, the run
ends on the tick of the third failure with `onAutoStop(reason, 3)` — the
count handed to `onAutoStop` is always exactly 3 and `onComplete` never fires
for such a run — and in the concrete count-10 run whose outcomes are one
success followed by three failures, exactly 4 progress events (indices 0..3)
are emitted, the store status becomes `error`, and `metrics.current` is 4
(not 10). -/
theorem autostop_on_three_consecutive_failures_c1 :
    (∀ (count : Nat) (outs : List TickResult) (reason : String) (n : Nat),
      (runEngine count outs).ending = RunEnd.autoStopped reason n →
      n = 3 ∧ (runEngine count outs).ending ≠ RunEnd.completed) ∧
    ((runEngine 10 sampleOutcomes4).events.map (·.current) = [0, 1, 2, 3] ∧
     (runEngine 10 sampleOutcomes4).ending = RunEnd.autoStopped "連續失敗次數過多" 3 ∧
     (runStore sampleArticle 10 300 1000 5000 sampleOutcomes4).status = .error ∧
     (runStore sampleArticle 10 300 1000 5000 sampleOutcomes4).metrics.current = 4) := by
  constructor
  · intro count outs reason n h
    refine ⟨engineLoop_autoStopped_eq_three count none outs 0 0 (by omega) reason n h, ?_⟩
    rw [h]
    intro hc
    cases hc
  · exact ⟨by decide, by decide, by decide, by decide⟩

/-- Witness for `autostop_on_three_consecutive_failures_c1` at the concrete
auto-stopped run. -/
theorem autostop_on_three_consecutive_failures_c1_witness :
    (runEngine 10 sampleOutcomes4).ending = RunEnd.autoStopped "連續失敗次數過多" 3 ∧
    (3 = 3 ∧ (runEngine 10 sampleOutcomes4).ending ≠ RunEnd.completed) :=
  ⟨by decide,
   autostop_on_three_consecutive_failures_c1.1 10 sampleOutcomes4 "連續失敗次數過多" 3 (by decide)⟩

/-- C4: every progress event the engine ever emits carries
`consecutiveFailures ≤ 2`, so every store snapshot reachable by
engine-generated actions (in whatever interleaving, hence in particular every
snapshot whose status is `running`) has `metrics.consecutiveFailures ≤ 2`;
the tick on which the streak reaches 3 itself ends the run with
`onAutoStop(_, 3)` (no further scheduling), and the store snapshot of an
auto-stopped run has status `error`. -/
theorem running_snapshot_cf_at_most_two_c4 :
    (∀ (count : Nat) (outs : List TickResult),
      ∀ e ∈ (runEngine count outs).events, e.consecutiveFailures ≤ 2) ∧
    (∀ acts : List BoostAction, (∀ a ∈ acts, GoodAction a) →
      (acts.foldl boostReducer initialState).status = .running →
      (acts.foldl boostReducer initialState).metrics.consecutiveFailures ≤ 2) ∧
    (∀ (count : Nat) (cancelAt : Option Nat) (idx : Nat) (o : TickResult)
        (rest : List TickResult),
      ¬ cancelAt = some idx → (mkEvent idx count 2 o).success = false →
      (engineLoop count cancelAt idx 2 (o :: rest)).ending =
        RunEnd.autoStopped
          (autoStopReason (mkEvent idx count 2 o).statusCode (mkEvent idx count 2 o).error) 3) ∧
    (∀ (a : Article) (count interval : Nat) (t0 tEnd : Int) (outs : List TickResult)
        (reason : String) (n : Nat),
      (runEngine count outs).ending = RunEnd.autoStopped reason n →
      (runStore a count interval t0 tEnd outs).status = .error) := by
  refine ⟨?_, ?_, ?_, ?_⟩
  · intro count outs e he
    exact engineLoop_events_cf_le count none outs 0 0 (by omega) e he
  · intro acts hg _
    exact foldl_good_cf_le acts initialState (by decide) hg
  · intro count cancelAt idx o rest hc hf
    simp only [engineLoop]
    rw [if_neg hc, if_pos ⟨hf, by omega⟩]
  · intro a count interval t0 tEnd outs reason n h
    simp only [runStore, runActionList, runEngine, runEngineWith] at h ⊢
    rw [h]
    simp only [endingActions]
    rw [List.foldl_cons, List.foldl_append]
    simp

/-- Witness for `running_snapshot_cf_at_most_two_c4` at a concrete event and
the concrete auto-stopped run. -/
theorem running_snapshot_cf_at_most_two_c4_witness :
    (mkEvent 0 10 0 okTick).consecutiveFailures ≤ 2 ∧
    (runStore sampleArticle 10 300 1000 5000 sampleOutcomes4).status = .error :=
  ⟨running_snapshot_cf_at_most_two_c4.1 10 sampleOutcomes4 (mkEvent 0 10 0 okTick) (by decide),
   running_snapshot_cf_at_most_two_c4.2.2.2 sampleArticle 10 300 1000 5000 sampleOutcomes4
     "連續失敗次數過多" 3 (by decide)⟩

/-- C7: each progress event increments exactly one of `success`/`failed` and
sets `current` to one more than the event's 0-based index; indices are issued
sequentially (`0, 1, 2, …`); and for every completed run with `count ≥ 1`,
exactly `count` ticks were issued and the final snapshot satisfies
`metrics.current = count = metrics.success + metrics.failed =
min(count, ticks issued)`. -/
theorem completed_run_metrics_consistent_c7 :
    (∀ (s : BoostOperation) (p : ProgressEvent),
      (boostReducer s (.updateProgress p)).metrics.current = p.current + 1 ∧
      ((p.success = true ∧
          (boostReducer s (.updateProgress p)).metrics.success = s.metrics.success + 1 ∧
          (boostReducer s (.updateProgress p)).metrics.failed = s.metrics.failed) ∨
        (p.success = false ∧
          (boostReducer s (.updateProgress p)).metrics.success = s.metrics.success ∧
          (boostReducer s (.updateProgress p)).metrics.failed = s.metrics.failed + 1))) ∧
    (∀ (count : Nat) (outs : List TickResult),
      (runEngine count outs).events.map (·.current) =
        List.range ((runEngine count outs).events.length)) ∧
    (∀ (a : Article) (count interval : Nat) (t0 tEnd : Int) (outs : List TickResult),
      1 ≤ count → (runEngine count outs).ending = RunEnd.completed →
      (runEngine count outs).events.length = count ∧
      (runStore a count interval t0 tEnd outs).metrics.current = count ∧
      (runStore a count interval t0 tEnd outs).metrics.current =
        (runStore a count interval t0 tEnd outs).metrics.success +
          (runStore a count interval t0 tEnd outs).metrics.failed ∧
      (runStore a count interval t0 tEnd outs).metrics.current =
        min count ((runEngine count outs).events.length)) := by
  refine ⟨?_, ?_, ?_⟩
  · intro s p
    refine ⟨rfl, ?_⟩
    cases hs : p.success with
    | true => exact Or.inl ⟨rfl, by simp [hs], by simp [hs]⟩
    | false => exact Or.inr ⟨rfl, by simp [hs], by simp [hs]⟩
  · intro count outs
    rw [List.range_eq_range']
    exact engineLoop_events_current count none outs 0 0
  · intro a count interval t0 tEnd outs h1 h2
    have h0 : (0 : Nat) < count := h1
    have hlen : (runEngine count outs).events.length = count := by
      have := engineLoop_completed_length count none outs 0 0 h0 h2
      simpa using this
    have hlast : ((runEngine count outs).events.map (·.current)).getLast? = some (count - 1) :=
      engineLoop_completed_getLast count none outs 0 0 h0 h2
    have hstore : runStore a count interval t0 tEnd outs =
        boostReducer (((runEngine count outs).events.map BoostAction.updateProgress).foldl
          boostReducer (boostReducer initialState (.start a count interval t0)))
          (.complete tEnd) := by
      simp only [runStore, runActionList]
      rw [h2]
      simp only [endingActions]
      rw [List.foldl_cons, List.foldl_append]
      rfl
    have hcur : (runStore a count interval t0 tEnd outs).metrics.current = count := by
      rw [hstore]
      simp only [reducer_complete_metrics]
      rw [foldl_updates_current_last (runEngine count outs).events _ (count - 1) hlast]
      omega
    have hsum : (runStore a count interval t0 tEnd outs).metrics.success +
        (runStore a count interval t0 tEnd outs).metrics.failed = count := by
      rw [hstore]
      simp only [reducer_complete_metrics]
      have hfold := foldl_updates_success_failed (runEngine count outs).events
        (boostReducer initialState (.start a count interval t0))
      rw [hlen] at hfold
      simpa [initialState] using hfold
    exact ⟨hlen, hcur, by omega, by omega⟩

/-- Witness for `completed_run_metrics_consistent_c7` at a concrete completed
run of count 3. -/
theorem completed_run_metrics_consistent_c7_witness :
    ((1 : Nat) ≤ 3 ∧ (runEngine 3 okOutcomes3).ending = RunEnd.completed) ∧
    ((runEngine 3 okOutcomes3).events.length = 3 ∧
     (runStore sampleArticle 3 300 1000 5000 okOutcomes3).metrics.current = 3 ∧
     (runStore sampleArticle 3 300 1000 5000 okOutcomes3).metrics.current =
       (runStore sampleArticle 3 300 1000 5000 okOutcomes3).metrics.success +
         (runStore sampleArticle 3 300 1000 5000 okOutcomes3).metrics.failed ∧
     (runStore sampleArticle 3 300 1000 5000 okOutcomes3).metrics.current =
       min 3 ((runEngine 3 okOutcomes3).events.length)) :=
  ⟨⟨by omega, by decide⟩,
   completed_run_metrics_consistent_c7.2.2 sampleArticle 3 300 1000 5000 okOutcomes3
     (by omega) (by decide)⟩

/-- C9: the URL resolver is a pure function that fails exactly when the
article id is not a 24-character hex string or the title is empty after
trimming; `startBoost` evaluates it synchronously before any tick is
scheduled, so with an invalid id the run errors out having produced no
engine result, and the store's `metrics.current` is 0 right after `START`
(and stays 0 since no progress event is ever dispatched). -/
theorem url_resolver_validation_c9 :
    (∀ (a : Article) (ch : Option String),
      isOkE (buildArticleUrl a ch) = true ↔
        (matchesHex24 a._id = true ∧ (jsTrim a.title).length ≠ 0)) ∧
    (∀ (a : Article) (count : Nat) (outs : List TickResult),
      matchesHex24 a._id = false → isOkE (startBoostRun a count outs) = false) ∧
    (∀ (a : Article) (count interval : Nat) (now : Int),
      (boostReducer initialState (.start a count interval now)).metrics.current = 0) ∧
    isOkE (startBoostRun { _id := "not-hex", title := "test" } 10 []) = false := by
  refine ⟨buildArticleUrl_isOk_iff, ?_, fun _ _ _ _ => rfl, by decide⟩
  intro a count outs hbad
  have hnok : ¬ isOkE (buildArticleUrl a a.channelId) = true := by
    rw [buildArticleUrl_isOk_iff]
    rintro ⟨hx, -⟩
    rw [hbad] at hx
    cases hx
  simp only [startBoostRun]
  cases hb : buildArticleUrl a a.channelId with
  | error e => rfl
  | ok u =>
    rw [hb] at hnok
    exact absurd rfl hnok

/-- Witness for `url_resolver_validation_c9` at the invalid id `"not-hex"`. -/
theorem url_resolver_validation_c9_witness :
    matchesHex24 "not-hex" = false ∧
    isOkE (startBoostRun { _id := "not-hex", title := "test" } 5 okOutcomes3) = false :=
  ⟨by decide,
   url_resolver_validation_c9.2.1 { _id := "not-hex", title := "test" } 5 okOutcomes3 (by decide)⟩

/-- C10: for a target response with an HTTP status outside 200–299 the proxy
route resolves with `success = false` and `statusCode` equal to that status
(and `sendViewRequest` turns any resolved route body into a resolved result,
never a throw); only a network-level exception of the fetch to the proxy
produces a throw, which the engine folds into a failure progress event whose
`statusCode` field is absent. -/
theorem proxy_http_failures_resolve_c10 :
    (∀ (url title statusText html : String) (s : Nat) (rt : Int),
      ¬ url = "" → ¬ title = "" → (s < 200 ∨ 300 ≤ s) →
      (boostViewPOST url title (.ok (s, statusText, html)) rt).success = false ∧
      (boostViewPOST url title (.ok (s, statusText, html)) rt).statusCode = s ∧
      sendViewRequest (.ok (boostViewPOST url title (.ok (s, statusText, html)) rt)) =
        .ok { responseTime := rt, statusCode := s, success := false,
              error := some ("HTTP " ++ toString s ++ ": " ++ statusText) }) ∧
    (∀ body : BoostViewResponse, isOkE (sendViewRequest (.ok body)) = true) ∧
    (∀ (msg : String) (idx count cf : Nat),
      (mkEvent idx count cf (sendViewRequest (.error msg))).statusCode = none ∧
      (mkEvent idx count cf (sendViewRequest (.error msg))).success = false ∧
      (mkEvent idx count cf (sendViewRequest (.error msg))).error = some msg) := by
  refine ⟨?_, fun _ => rfl, fun _ _ _ _ => ⟨rfl, rfl, rfl⟩⟩
  intro url title statusText html s rt hu ht hs
  have hcond : ¬ (url = "" ∨ title = "") := by
    rintro (h | h)
    · exact hu h
    · exact ht h
  refine ⟨?_, ?_, ?_⟩ <;>
    simp [boostViewPOST, sendViewRequest, if_neg hcond, if_pos hs]

/-- Witness for `proxy_http_failures_resolve_c10` at a concrete 404 target
response. -/
theorem proxy_http_failures_resolve_c10_witness :
    (boostViewPOST "https://example.com/a" "t" (.ok (404, "Not Found", "")) 120).success = false ∧
    (boostViewPOST "https://example.com/a" "t" (.ok (404, "Not Found", "")) 120).statusCode = 404 ∧
    sendViewRequest (.ok (boostViewPOST "https://example.com/a" "t"
        (.ok (404, "Not Found", "")) 120)) =
      .ok { responseTime := 120, statusCode := 404, success := false,
            error := some ("HTTP " ++ toString 404 ++ ": " ++ "Not Found") } :=
  proxy_http_failures_resolve_c10.1 "https://example.com/a" "t" "Not Found" "" 404 120
    (by decide) (by decide) (by omega)

end SinoTrade
